import Mathlib

/-!
Shallow embedding of `Atmospheric_refraction.py`: the Saemundsson (1986)
refraction-correction function `Saemundsson` and the barometric pressure
formula `p`, together with theorems settling the specification's claims
about them.  Machine floats are modelled by exact real arithmetic.
-/

namespace Atmos

/-- Element-wise clipping as performed by `numpy.ndarray.clip`:
`x.clip(min=lo, max=hi)` first raises to `lo`, then caps at `hi`. -/
noncomputable def clip (x lo hi : ℝ) : ℝ := min (max x lo) hi

/-- Degree-to-radian conversion, as `numpy.deg2rad`. -/
noncomputable def deg2rad (d : ℝ) : ℝ := d * (Real.pi / 180)

/-- Scalar body of the `Saemundsson` function of the script, applied to one
element of the input array: the input is clipped to `[h_min, h_max]`, then
`R = 1.02 / tan(deg2rad(h + 10.3 / (h + 5.11)))`, `R += 0.0019279`,
`R *= (P / 101.0) * (283.0 / (273.0 + T))`, and the result is `R * (1/60)`. -/
noncomputable def SaemundssonScalar (h T P h_min h_max : ℝ) : ℝ :=
  ((1.02 / Real.tan (deg2rad (clip h h_min h_max + 10.3 / (clip h h_min h_max + 5.11)))
      + 0.0019279) * ((P / 101.0) * (283.0 / (273.0 + T)))) * (1.0 / 60.0)

/-- The `Saemundsson` function of the script on a whole input sequence:
a numpy vectorised expression acts element-wise. -/
noncomputable def Saemundsson (h : List ℝ) (T P h_min h_max : ℝ) : List ℝ :=
  h.map (fun x => SaemundssonScalar x T P h_min h_max)

/-- Reference sea-level temperature `T_0 = 273.15 + 10.0` K of the script. -/
noncomputable def T_0 : ℝ := 273.15 + 10.0

/-- Reference sea-level pressure `p_0 = 101.0` kPa of the script. -/
noncomputable def p_0 : ℝ := 101.0

/-- Gravitational acceleration `g = 9.81` of the script. -/
noncomputable def g : ℝ := 9.81

/-- Gas constant for dry air `R_d = 287.0` of the script. -/
noncomputable def R_d : ℝ := 287.0

/-- Lapse rate `tau = 0.0065` of the script. -/
noncomputable def tau : ℝ := 0.0065

/-- Barometric formula of the script:
`p = p_0 * ((T_0 - tau * z) / T_0) ** (g / (R_d * tau))`, element-wise. -/
noncomputable def p (z : ℝ) : ℝ := p_0 * ((T_0 - tau * z) / T_0) ^ (g / (R_d * tau))

/-- `numpy.linspace a b num`: `num` evenly spaced values from `a` to `b`,
the `i`-th being `a + (b - a) * i / (num - 1)`. -/
noncomputable def linspace (a b : ℝ) (num : ℕ) : List ℝ :=
  (List.range num).map (fun i : ℕ => a + (b - a) * (i : ℝ) / ((num : ℝ) - 1))

/-- The solar elevation series of the script: `np.linspace(-2.5, 90.0, 926)`. -/
noncomputable def sol_elev : List ℝ := linspace (-2.5) 90.0 926

/-- The unique input in `[-1, 90]` at which the tangent argument
`h + 10.3 / (h + 5.11)` of the Saemundsson formula equals exactly 90 degrees:
the positive root of `100*h^2 - 8489*h - 44960 = 0`. -/
noncomputable def hstar : ℝ := (8489 + Real.sqrt 90047121) / 200

/-! ### Helper lemmas -/

lemma clip_idem (x a b : ℝ) : clip (clip x a b) a b = clip x a b := by
  simp only [clip, min_def, max_def]
  split_ifs <;> linarith

lemma clip_eq_self {x lo hi : ℝ} (h1 : lo ≤ x) (h2 : x ≤ hi) : clip x lo hi = x := by
  simp only [clip, max_eq_left h1, min_eq_left h2]

lemma mem_linspace {a b : ℝ} {num : ℕ} {x : ℝ} (hx : x ∈ linspace a b num) :
    ∃ i : ℕ, i < num ∧ x = a + (b - a) * i / ((num : ℝ) - 1) := by
  unfold linspace at hx
  obtain ⟨i, hi, hix⟩ := List.mem_map.mp hx
  exact ⟨i, List.mem_range.mp hi, hix.symm⟩

lemma linspace_mem (a b : ℝ) {num : ℕ} (i : ℕ) (hi : i < num) :
    a + (b - a) * i / ((num : ℝ) - 1) ∈ linspace a b num := by
  unfold linspace
  exact List.mem_map.mpr ⟨i, List.mem_range.mpr hi, rfl⟩

lemma clip_mem (x lo hi : ℝ) (hlohi : lo ≤ hi) :
    lo ≤ clip x lo hi ∧ clip x lo hi ≤ hi :=
  ⟨le_min (le_max_right x lo) hlohi, min_le_right _ _⟩

lemma tan_lb {x : ℝ} (h0 : 0 < x) (h1 : x ≤ 1/20) : x ≤ Real.tan x := by
  have hx2 : x < Real.pi / 2 := by nlinarith [Real.pi_gt_three]
  exact (Real.lt_tan h0 hx2).le

lemma tan_ub {x : ℝ} (h0 : 0 < x) (h1 : x ≤ 1/20) : Real.tan x ≤ x + x^3 := by
  have hcos_lb : 1 - x^2/2 ≤ Real.cos x := Real.one_sub_sq_div_two_le_cos
  have hcos_pos : 0 < Real.cos x := by nlinarith
  have hsin : Real.sin x < x := Real.sin_lt h0
  rw [Real.tan_eq_sin_div_cos, div_le_iff₀ hcos_pos]
  have hx2le : x^2 ≤ 1 := by nlinarith
  have hx35 : x^3 * x^2 ≤ x^3 * 1 :=
    mul_le_mul_of_nonneg_left hx2le (le_of_lt (pow_pos h0 3))
  have hmul : (x + x^3) * (1 - x^2/2) ≤ (x + x^3) * Real.cos x :=
    mul_le_mul_of_nonneg_left hcos_lb (by positivity)
  nlinarith [hsin, hmul, hx35]

lemma sin_le_tan {x : ℝ} (h0 : 0 ≤ x) (hx : x < Real.pi/2) : Real.sin x ≤ Real.tan x := by
  have hcos_pos : 0 < Real.cos x := Real.cos_pos_of_mem_Ioo ⟨by linarith [Real.pi_pos], hx⟩
  have hcos_le : Real.cos x ≤ 1 := Real.cos_le_one x
  have hsin0 : 0 ≤ Real.sin x := Real.sin_nonneg_of_nonneg_of_le_pi h0 (by linarith [Real.pi_pos])
  rw [Real.tan_eq_sin_div_cos, le_div_iff₀ hcos_pos]
  nlinarith

/-- Sharp lower bound on `1.02 * tan ε` for `ε = deg2rad (10.3 / 95.11)`, the
radian form of the tangent-argument overshoot at `h = 90`.  The product is
strictly larger than the additive calibration constant `0.0019279`. -/
lemma tan_eps_gt : (0.0019279 : ℝ) < 1.02 * Real.tan ((1030/9511) * (Real.pi/180)) := by
  set x : ℝ := (1030/9511) * (Real.pi/180) with hxdef
  have hπl := Real.pi_gt_d6
  have hπu := Real.pi_lt_d6
  have hxl : (1030/9511 : ℝ) * (3.141592/180) ≤ x := by rw [hxdef]; linarith
  have hxu : x ≤ (1030/9511 : ℝ) * (3.141593/180) := by rw [hxdef]; linarith
  have hx0 : 0 < x := by linarith
  have hxhalf : x < Real.pi/2 := by linarith
  have hx1 : |x| ≤ 1 := by rw [abs_of_pos hx0]; linarith
  have hs := Real.sin_bound hx1
  rw [abs_of_pos hx0] at hs
  have hs1 : x - x^3/6 - x^4 * (5/96) ≤ Real.sin x := by
    have h2 := abs_le.mp hs
    linarith [h2.1]
  have htan : Real.sin x ≤ Real.tan x := sin_le_tan hx0.le hxhalf
  have hc : x^3 ≤ ((1030/9511 : ℝ) * (3.141593/180))^3 := pow_le_pow_left hx0.le hxu 3
  have hq : x^4 ≤ ((1030/9511 : ℝ) * (3.141593/180))^4 := pow_le_pow_left hx0.le hxu 4
  nlinarith [hs1, htan, hxl, hc, hq]

/-- Matching upper bound on `1.02 * tan ε`: it exceeds `0.0019279` by less
than `6e-8`. -/
lemma tan_eps_ub :
    1.02 * Real.tan ((1030/9511) * (Real.pi/180)) < 0.0019279 + 6/100000000 := by
  set x : ℝ := (1030/9511) * (Real.pi/180) with hxdef
  have hπl := Real.pi_gt_d6
  have hπu := Real.pi_lt_d6
  have hxl : (1030/9511 : ℝ) * (3.141592/180) ≤ x := by rw [hxdef]; linarith
  have hxu : x ≤ (1030/9511 : ℝ) * (3.141593/180) := by rw [hxdef]; linarith
  have hx0 : 0 < x := by linarith
  have htu : Real.tan x ≤ x + x^3 := tan_ub hx0 (by linarith)
  have hc : x^3 ≤ ((1030/9511 : ℝ) * (3.141593/180))^3 := pow_le_pow_left hx0.le hxu 3
  nlinarith [htu, hxu, hc]

/-- Reflection of the Saemundsson leading term across the 90 degree
singularity: `1.02 / tan (π/2 + δ) = -(1.02 * tan δ)` for small positive `δ`. -/
lemma tan_shift (δ : ℝ) (h1 : 0 < δ) (h2 : δ < 1) :
    1.02 / Real.tan (Real.pi/2 + δ) = -(1.02 * Real.tan δ) := by
  have hsin : Real.sin (Real.pi/2 + δ) = Real.cos δ := by
    rw [Real.sin_add, Real.sin_pi_div_two, Real.cos_pi_div_two]; ring
  have hcos : Real.cos (Real.pi/2 + δ) = -Real.sin δ := by
    rw [Real.cos_add, Real.sin_pi_div_two, Real.cos_pi_div_two]; ring
  have hsd : 0 < Real.sin δ :=
    Real.sin_pos_of_pos_of_lt_pi h1 (by nlinarith [Real.pi_gt_three])
  have hcd : 0 < Real.cos δ :=
    Real.cos_pos_of_mem_Ioo ⟨by linarith [Real.pi_pos], by nlinarith [Real.pi_gt_three]⟩
  rw [Real.tan_eq_sin_div_cos, Real.tan_eq_sin_div_cos, hsin, hcos]
  rw [div_div_eq_mul_div]
  field_simp

/-- Closed form of the Saemundsson value at the zenith input `h = 90`. -/
lemma saemundsson_at_90 (T P : ℝ) :
    SaemundssonScalar 90 T P (-1) 90
      = ((0.0019279 - 1.02 * Real.tan ((1030/9511) * (Real.pi/180)))
          * ((P / 101.0) * (283.0 / (273.0 + T)))) * (1.0/60.0) := by
  have hclip : clip (90 : ℝ) (-1) 90 = 90 := clip_eq_self (by norm_num) le_rfl
  unfold SaemundssonScalar
  rw [hclip]
  have harg : (90 : ℝ) + 10.3 / (90 + 5.11) = 90 + 1030/9511 := by norm_num
  rw [harg]
  have hdeg : deg2rad (90 + 1030/9511) = Real.pi/2 + (1030/9511) * (Real.pi/180) := by
    unfold deg2rad; ring
  rw [hdeg]
  have hx0 : (0 : ℝ) < (1030/9511) * (Real.pi/180) := by
    have := Real.pi_pos
    positivity
  have hx1 : (1030/9511 : ℝ) * (Real.pi/180) < 1 := by nlinarith [Real.pi_lt_four]
  rw [tan_shift _ hx0 hx1]
  ring

lemma arg_lt (h1 h2 : ℝ) (ha : -1 ≤ h1) (hb : h1 < h2) :
    h1 + 10.3 / (h1 + 5.11) < h2 + 10.3 / (h2 + 5.11) := by
  have d1 : (0 : ℝ) < h1 + 5.11 := by linarith
  have d2 : (0 : ℝ) < h2 + 5.11 := by linarith
  have key : h2 + 10.3 / (h2 + 5.11) - (h1 + 10.3 / (h1 + 5.11))
      = (h2 - h1) * (((h1 + 5.11) * (h2 + 5.11) - 10.3) / ((h1 + 5.11) * (h2 + 5.11))) := by
    field_simp
    ring
  have hprod : (10.3 : ℝ) < (h1 + 5.11) * (h2 + 5.11) := by nlinarith
  have hpos : 0 < (h2 - h1)
      * (((h1 + 5.11) * (h2 + 5.11) - 10.3) / ((h1 + 5.11) * (h2 + 5.11))) :=
    mul_pos (by linarith) (div_pos (by linarith) (by positivity))
  linarith

lemma arg_le (h1 h2 : ℝ) (ha : -1 ≤ h1) (hb : h1 ≤ h2) :
    h1 + 10.3 / (h1 + 5.11) ≤ h2 + 10.3 / (h2 + 5.11) := by
  rcases eq_or_lt_of_le hb with rfl | hlt
  · exact le_refl _
  · exact (arg_lt h1 h2 ha hlt).le

lemma arg_lb (h : ℝ) (h0 : 0 ≤ h) : 2 ≤ h + 10.3 / (h + 5.11) := by
  have ha := arg_le 0 h (by norm_num) h0
  have hb : (2 : ℝ) ≤ 0 + 10.3 / (0 + 5.11) := by norm_num
  linarith

lemma arg_ub (h : ℝ) (h90 : h ≤ 90) (hm : -1 ≤ h) :
    h + 10.3 / (h + 5.11) ≤ 90 + 1030/9511 := by
  have ha := arg_le h 90 hm h90
  have hb : (90 : ℝ) + 10.3 / (90 + 5.11) = 90 + 1030/9511 := by norm_num
  linarith

lemma deg2rad_pos {a : ℝ} (h : 0 < a) : 0 < deg2rad a := by
  unfold deg2rad
  exact mul_pos h (div_pos Real.pi_pos (by norm_num))

lemma deg2rad_lt_pi_div_two {a : ℝ} (h : a < 90) : deg2rad a < Real.pi/2 := by
  unfold deg2rad
  nlinarith [mul_pos (show (0 : ℝ) < 90 - a by linarith) Real.pi_pos]

lemma pi_div_two_lt_deg2rad {a : ℝ} (h : 90 < a) : Real.pi/2 < deg2rad a := by
  unfold deg2rad
  nlinarith [mul_pos (show (0 : ℝ) < a - 90 by linarith) Real.pi_pos]

lemma deg2rad_lt_pi {a : ℝ} (h : a < 180) : deg2rad a < Real.pi := by
  unfold deg2rad
  nlinarith [mul_pos (show (0 : ℝ) < 180 - a by linarith) Real.pi_pos]

lemma deg2rad_mono {a b : ℝ} (h : a < b) : deg2rad a < deg2rad b := by
  unfold deg2rad
  nlinarith [mul_pos (show (0 : ℝ) < b - a by linarith) Real.pi_pos]

lemma deg2rad_90 : deg2rad (90 : ℝ) = Real.pi/2 := by
  unfold deg2rad; ring

lemma tan_deg_pos {a : ℝ} (h0 : 0 < a) (h90 : a < 90) : 0 < Real.tan (deg2rad a) :=
  Real.tan_pos_of_pos_of_lt_pi_div_two (deg2rad_pos h0) (deg2rad_lt_pi_div_two h90)

lemma tan_deg_neg {a : ℝ} (h90 : 90 < a) (hub : a ≤ 91) : Real.tan (deg2rad a) < 0 := by
  have hper : Real.tan (deg2rad a - Real.pi) = Real.tan (deg2rad a) :=
    Real.tan_periodic.sub_eq _
  rw [← hper]
  apply Real.tan_neg_of_neg_of_pi_div_two_lt
  · have := deg2rad_lt_pi (show a < 180 by linarith)
    linarith
  · have := pi_div_two_lt_deg2rad h90
    linarith

lemma tan_deg_mono_pos {a b : ℝ} (h0 : 0 < a) (hab : a < b) (h90 : b < 90) :
    Real.tan (deg2rad a) < Real.tan (deg2rad b) :=
  Real.tan_lt_tan_of_lt_of_lt_pi_div_two
    (by have := deg2rad_pos h0; linarith [Real.pi_pos])
    (deg2rad_lt_pi_div_two h90) (deg2rad_mono hab)

lemma tan_deg_mono_neg {a b : ℝ} (h90 : 90 < a) (hab : a < b) (hub : b ≤ 91) :
    Real.tan (deg2rad a) < Real.tan (deg2rad b) := by
  have hpa : Real.tan (deg2rad a - Real.pi) = Real.tan (deg2rad a) :=
    Real.tan_periodic.sub_eq _
  have hpb : Real.tan (deg2rad b - Real.pi) = Real.tan (deg2rad b) :=
    Real.tan_periodic.sub_eq _
  rw [← hpa, ← hpb]
  apply Real.tan_lt_tan_of_lt_of_lt_pi_div_two
  · have := pi_div_two_lt_deg2rad h90
    linarith
  · have := deg2rad_lt_pi (show b < 180 by linarith)
    linarith [Real.pi_pos]
  · have := deg2rad_mono hab
    linarith

/-- The leading term `1.02 / tan (deg2rad (h + 10.3/(h + 5.11)))` is
non-increasing over `[0, 90]`, including across the 90 degree singularity of
the tangent argument (where Lean evaluates `1.02 / tan (π/2) = 1.02 / 0 = 0`). -/
lemma base_antitone {h1 h2 : ℝ} (h10 : 0 ≤ h1) (h12 : h1 ≤ h2) (h290 : h2 ≤ 90) :
    1.02 / Real.tan (deg2rad (h2 + 10.3 / (h2 + 5.11)))
      ≤ 1.02 / Real.tan (deg2rad (h1 + 10.3 / (h1 + 5.11))) := by
  set a1 := h1 + 10.3 / (h1 + 5.11) with ha1def
  set a2 := h2 + 10.3 / (h2 + 5.11) with ha2def
  have ha12 : a1 ≤ a2 := by
    rw [ha1def, ha2def]; exact arg_le h1 h2 (by linarith) h12
  have ha1lb : 2 ≤ a1 := by rw [ha1def]; exact arg_lb h1 h10
  have ha2ub : a2 ≤ 90 + 1030/9511 := by
    rw [ha2def]; exact arg_ub h2 h290 (by linarith)
  clear_value a1 a2
  have hub91 : (90 : ℝ) + 1030/9511 ≤ 91 := by norm_num
  rcases lt_trichotomy a2 90 with hc2 | hc2 | hc2
  · have t2 : 0 < Real.tan (deg2rad a2) := tan_deg_pos (by linarith) hc2
    rcases eq_or_lt_of_le ha12 with heq | hlt
    · rw [heq]
    · have t1 : 0 < Real.tan (deg2rad a1) := tan_deg_pos (by linarith) (by linarith)
      have hmono := tan_deg_mono_pos (show (0 : ℝ) < a1 by linarith) hlt hc2
      rw [div_le_div_iff t2 t1]
      nlinarith [hmono]
  · have t2 : Real.tan (deg2rad a2) = 0 := by
      rw [hc2, deg2rad_90]; exact Real.tan_pi_div_two
    rw [t2, div_zero]
    rcases eq_or_lt_of_le (le_of_le_of_eq ha12 hc2) with heq1 | hlt1
    · have t1 : Real.tan (deg2rad a1) = 0 := by
        rw [heq1, deg2rad_90]; exact Real.tan_pi_div_two
      rw [t1, div_zero]
    · exact le_of_lt (div_pos (by norm_num) (tan_deg_pos (by linarith) hlt1))
  · have t2 : Real.tan (deg2rad a2) < 0 := tan_deg_neg hc2 (by linarith)
    have hL : 1.02 / Real.tan (deg2rad a2) < 0 := div_neg_of_pos_of_neg (by norm_num) t2
    rcases lt_trichotomy a1 90 with hc1 | hc1 | hc1
    · have t1 := tan_deg_pos (show (0 : ℝ) < a1 by linarith) hc1
      have : 0 < 1.02 / Real.tan (deg2rad a1) := div_pos (by norm_num) t1
      linarith
    · have t1 : Real.tan (deg2rad a1) = 0 := by
        rw [hc1, deg2rad_90]; exact Real.tan_pi_div_two
      rw [t1, div_zero]
      linarith
    · rcases eq_or_lt_of_le ha12 with heq | hlt
      · rw [heq]
      · have t1 : Real.tan (deg2rad a1) < 0 := tan_deg_neg hc1 (by linarith)
        have hmono := tan_deg_mono_neg hc1 hlt (by linarith)
        have hprod : 0 < Real.tan (deg2rad a1) * Real.tan (deg2rad a2) :=
          mul_pos_of_neg_of_neg t1 t2
        have key : 1.02 / Real.tan (deg2rad a2) - 1.02 / Real.tan (deg2rad a1)
            = 1.02 * (Real.tan (deg2rad a1) - Real.tan (deg2rad a2))
              / (Real.tan (deg2rad a1) * Real.tan (deg2rad a2)) := by
          field_simp [t1.ne, t2.ne]
          ring
        have hneg : 1.02 * (Real.tan (deg2rad a1) - Real.tan (deg2rad a2))
            / (Real.tan (deg2rad a1) * Real.tan (deg2rad a2)) < 0 :=
          div_neg_of_neg_of_pos (by nlinarith [hmono]) hprod
        linarith [key, hneg]

lemma hstar_sq : Real.sqrt (90047121 : ℝ) ^ 2 = 90047121 :=
  Real.sq_sqrt (by norm_num)

lemma sqrt_disc_gt : (9489 : ℝ) < Real.sqrt 90047121 := by
  have h : (9489 : ℝ) = Real.sqrt (9489 ^ 2) := (Real.sqrt_sq (by norm_num)).symm
  rw [h]
  exact Real.sqrt_lt_sqrt (by positivity) (by norm_num)

lemma sqrt_disc_lt : Real.sqrt (90047121 : ℝ) < 9511 := by
  have h : (9511 : ℝ) = Real.sqrt (9511 ^ 2) := (Real.sqrt_sq (by norm_num)).symm
  rw [h]
  exact Real.sqrt_lt_sqrt (by norm_num) (by norm_num)

lemma hstar_bounds : 89 < hstar ∧ hstar < 90 := by
  unfold hstar
  constructor
  · rw [lt_div_iff (by norm_num : (0 : ℝ) < 200)]
    linarith [sqrt_disc_gt]
  · rw [div_lt_iff (by norm_num : (0 : ℝ) < 200)]
    linarith [sqrt_disc_lt]

lemma hstar_arg : hstar + 10.3 / (hstar + 5.11) = 90 := by
  have hs2 := hstar_sq
  have hsn : (0 : ℝ) ≤ Real.sqrt 90047121 := Real.sqrt_nonneg _
  have hden : hstar + 5.11 = (9511 + Real.sqrt 90047121) / 200 := by
    unfold hstar
    field_simp
    ring
  rw [hden]
  have hne : (9511 : ℝ) + Real.sqrt 90047121 ≠ 0 := by positivity
  have key : 10.3 / ((9511 + Real.sqrt 90047121) / 200)
      = 2060 / (9511 + Real.sqrt 90047121) := by
    rw [div_div_eq_mul_div]
    norm_num
  rw [key]
  unfold hstar
  rw [div_add_div _ _ (by norm_num : (200 : ℝ) ≠ 0) hne]
  rw [div_eq_iff (by positivity)]
  linear_combination hs2

lemma quad_root_unique (h : ℝ) (hge : -1 ≤ h)
    (heq : h + 10.3 / (h + 5.11) = 90) : h = hstar := by
  have hden : (0 : ℝ) < h + 5.11 := by linarith
  have hne : h + 5.11 ≠ 0 := ne_of_gt hden
  have h0 : h * (h + 5.11) + 10.3 = 90 * (h + 5.11) := by
    field_simp at heq
    linarith [heq]
  have hsq : (200 * h - 8489) ^ 2 = Real.sqrt 90047121 ^ 2 := by
    rw [hstar_sq]
    linear_combination 40000 * h0
  have hfac : (200 * h - 8489 - Real.sqrt 90047121)
      * (200 * h - 8489 + Real.sqrt 90047121) = 0 := by
    linear_combination hsq
  rcases mul_eq_zero.mp hfac with hcase | hcase
  · unfold hstar
    linarith [hcase]
  · exfalso
    have := sqrt_disc_gt
    linarith [hcase]

/-! ### Claims -/

/-- C1: element-wise functional correctness of `Saemundsson`: the output has
the same length as the input, and its `i`-th element is
`((1.02 / tan(deg2rad(hc + 10.3/(hc + 5.11))) + 0.0019279)
  * (P/101) * (283/(273+T))) * (1/60)` with `hc = min (max h[i] h_min) h_max`. -/
theorem saemundsson_elementwise (hs : List ℝ) (T P h_min h_max : ℝ) :
    (Saemundsson hs T P h_min h_max).length = hs.length ∧
    ∀ i : ℕ, (Saemundsson hs T P h_min h_max)[i]? =
      (hs[i]?).map (fun x =>
        ((1.02 / Real.tan (deg2rad (min (max x h_min) h_max
              + 10.3 / (min (max x h_min) h_max + 5.11))) + 0.0019279)
            * (P / 101.0) * (283.0 / (273.0 + T))) * (1 / 60)) := by
  constructor
  · simp [Saemundsson]
  · intro i
    simp only [Saemundsson, List.getElem?_map]
    cases hs[i]? with
    | none => rfl
    | some x =>
        simp only [Option.map_some']
        congr 1
        simp only [SaemundssonScalar, clip]
        ring

/-- C2: for every altitude `z` with `T0 - tau*z > 0`, the computed pressure is
`p0 * ((T0 - tau*z)/T0) ^ (g/(Rd*tau))` with the fixed constants
`T0 = 283.15`, `p0 = 101.0`, `g = 9.81`, `Rd = 287.0`, `tau = 0.0065`. -/
theorem pressure_formula (z : ℝ) (hz : 0 < 283.15 - 0.0065 * z) :
    p z = 101.0 * ((283.15 - 0.0065 * z) / 283.15) ^ ((9.81 : ℝ) / (287.0 * 0.0065)) := by
  have h1 : T_0 = (283.15 : ℝ) := by norm_num [T_0]
  simp only [p, p_0, Atmos.g, R_d, tau, h1]

/-- Witness for C2 at the concrete altitude `z = 0`. -/
theorem pressure_formula_witness :
    (0 : ℝ) < 283.15 - 0.0065 * 0 ∧
    p 0 = 101.0 * ((283.15 - 0.0065 * 0) / 283.15) ^ ((9.81 : ℝ) / (287.0 * 0.0065)) :=
  ⟨by norm_num, pressure_formula 0 (by norm_num)⟩

/-- C6: clipping is idempotent with respect to the function: applying
`Saemundsson` to the pre-clipped sequence with the same bounds gives the
same result as applying it to the raw sequence. -/
theorem saemundsson_clip_invariant (hs : List ℝ) (T P a b : ℝ) :
    Saemundsson hs T P a b = Saemundsson (hs.map (fun x => clip x a b)) T P a b := by
  simp only [Saemundsson, List.map_map]
  refine List.map_congr_left (fun x _ => ?_)
  simp only [Function.comp_apply, SaemundssonScalar, clip_idem]

/-- C7: scaling homomorphism: for `h` within the default clip bounds, the
reference-condition value scaled by `(P'/101) * (283/(273+T'))` equals the
value at conditions `T'`, `P'`. -/
theorem saemundsson_scaling (h T' P' : ℝ) (h1 : -1 ≤ h) (h2 : h ≤ 90) :
    SaemundssonScalar h 10 101 (-1) 90 * ((P' / 101) * (283 / (273 + T'))) =
      SaemundssonScalar h T' P' (-1) 90 := by
  simp only [SaemundssonScalar]
  have e1 : ((101 : ℝ) / 101.0) * (283.0 / (273.0 + 10)) = 1 := by norm_num
  rw [e1]
  ring

/-- Witness for C7 at `h = 0`, `T' = 20`, `P' = 90`. -/
theorem saemundsson_scaling_witness :
    (-1 : ℝ) ≤ 0 ∧ (0 : ℝ) ≤ 90 ∧
    SaemundssonScalar 0 10 101 (-1) 90 * ((90 / 101) * (283 / (273 + 20))) =
      SaemundssonScalar 0 20 90 (-1) 90 :=
  ⟨by norm_num, by norm_num, saemundsson_scaling 0 20 90 (by norm_num) (by norm_num)⟩

/-- C8: the barometric pressure is strictly decreasing in altitude on
`[0, 31000]`. -/
theorem pressure_strict_anti (z1 z2 : ℝ) (h0 : 0 ≤ z1) (h12 : z1 < z2)
    (h31 : z2 ≤ 31000) : p z2 < p z1 := by
  simp only [p, p_0, Atmos.g, R_d, tau, T_0]
  have hb2 : (0 : ℝ) ≤ (273.15 + 10.0 - 0.0065 * z2) / (273.15 + 10.0) := by
    have hz2 : (0 : ℝ) ≤ 273.15 + 10.0 - 0.0065 * z2 := by linarith
    exact div_nonneg hz2 (by norm_num)
  have hnum : 273.15 + 10.0 - 0.0065 * z2 < 273.15 + 10.0 - 0.0065 * z1 := by linarith
  have hlt : (273.15 + 10.0 - 0.0065 * z2) / (273.15 + 10.0)
      < (273.15 + 10.0 - 0.0065 * z1) / (273.15 + 10.0) := by
    gcongr
  have hq : (0 : ℝ) < 9.81 / (287.0 * 0.0065) := by norm_num
  have hpow := Real.rpow_lt_rpow hb2 hlt hq
  have h101 : (0 : ℝ) < 101.0 := by norm_num
  exact mul_lt_mul_of_pos_left hpow h101

/-- Witness for C8 at `z1 = 0`, `z2 = 1000`. -/
theorem pressure_strict_anti_witness :
    (0 : ℝ) ≤ 0 ∧ (0 : ℝ) < 1000 ∧ (1000 : ℝ) ≤ 31000 ∧ p 1000 < p 0 :=
  ⟨le_refl 0, by norm_num, by norm_num,
    pressure_strict_anti 0 1000 (le_refl 0) (by norm_num) (by norm_num)⟩

/-- C10: every value of the script's elevation series, clipped with the
comparison-curve bound `h_min = -20`, is at least `-2.5`, so the denominator
`h + 5.11` is strictly positive for every call the script makes. -/
theorem sol_elev_safe (x : ℝ) (hx : x ∈ sol_elev) :
    -2.5 ≤ clip x (-20) 90 ∧ 0 < clip x (-20) 90 + 5.11 := by
  unfold sol_elev at hx
  obtain ⟨i, hi, rfl⟩ := mem_linspace hx
  have hi' : (i : ℝ) ≤ 925 := by exact_mod_cast Nat.lt_succ_iff.mp hi
  have hi0 : (0 : ℝ) ≤ (i : ℝ) := Nat.cast_nonneg i
  have hc1 : ((926 : ℕ) : ℝ) - 1 = 925 := by norm_num
  have hc2 : (90.0 - -2.5 : ℝ) = 92.5 := by norm_num
  rw [hc1, hc2]
  have hterm : (0 : ℝ) ≤ 92.5 * (i : ℝ) / 925 := by positivity
  have hxhi : -2.5 + 92.5 * (i : ℝ) / 925 ≤ 90 := by
    have hstep : 92.5 * (i : ℝ) / 925 ≤ 92.5 := by
      rw [div_le_iff₀ (by norm_num : (0 : ℝ) < 925)]
      linarith
    linarith
  rw [clip_eq_self (by linarith) hxhi]
  exact ⟨by linarith, by linarith⟩

/-- Witness for C10 at the first element `-2.5` of the elevation series. -/
theorem sol_elev_safe_witness :
    ((-2.5 : ℝ) ∈ sol_elev) ∧
    (-2.5 ≤ clip (-2.5) (-20) 90 ∧ 0 < clip (-2.5) (-20) 90 + 5.11) := by
  have hmem : (-2.5 : ℝ) ∈ sol_elev := by
    have h0 := linspace_mem (-2.5) 90.0 0 (show 0 < 926 by norm_num)
    have he : (-2.5 : ℝ) + (90.0 - -2.5) * (0 : ℕ) / (((926 : ℕ) : ℝ) - 1) = -2.5 := by
      norm_num
    rw [he] at h0
    exact h0
  exact ⟨hmem, sol_elev_safe _ hmem⟩

/-- Two-sided enclosure of the Saemundsson value at `h = 0`, `T = 10`,
`P = 101`, `h_min = -20`: it lies in `[0.482, 0.4833]`. -/
lemma saemundsson_at_0_bounds :
    0.482 ≤ SaemundssonScalar 0 10 101 (-20) 90 ∧
    SaemundssonScalar 0 10 101 (-20) 90 ≤ 0.4833 := by
  have hclip : clip (0 : ℝ) (-20) 90 = 0 := clip_eq_self (by norm_num) (by norm_num)
  unfold SaemundssonScalar
  rw [hclip]
  have harg : (0 : ℝ) + 10.3 / (0 + 5.11) = 1030/511 := by norm_num
  rw [harg]
  have hdeg : deg2rad ((1030 : ℝ)/511) = (1030/511) * (Real.pi/180) := rfl
  rw [hdeg]
  set x : ℝ := (1030/511) * (Real.pi/180) with hxdef
  clear_value x
  have hπl := Real.pi_gt_d6
  have hπu := Real.pi_lt_d6
  have hxl : (1030/511 : ℝ) * (3.141592/180) ≤ x := by rw [hxdef]; linarith
  have hxu : x ≤ (1030/511 : ℝ) * (3.141593/180) := by rw [hxdef]; linarith
  have hx0 : 0 < x := by linarith
  have hx20 : x ≤ 1/20 := by linarith
  have htl : x ≤ Real.tan x := tan_lb hx0 hx20
  have htu : Real.tan x ≤ x + x^3 := tan_ub hx0 hx20
  have htpos : 0 < Real.tan x := lt_of_lt_of_le hx0 htl
  have hc3 : x^3 ≤ ((1030/511 : ℝ) * (3.141593/180))^3 := pow_le_pow_left hx0.le hxu 3
  have hsc : ((101 : ℝ) / 101.0) * (283.0 / (273.0 + 10)) = 1 := by norm_num
  rw [hsc]
  have hub : 1.02 / Real.tan x ≤ 1.02 / ((1030/511 : ℝ) * (3.141592/180)) := by
    rw [div_le_div_iff htpos (by norm_num)]
    nlinarith [htl, hxl]
  have hlb : 1.02 / ((1030/511 : ℝ) * (3.141593/180)
        + ((1030/511 : ℝ) * (3.141593/180))^3) ≤ 1.02 / Real.tan x := by
    rw [div_le_div_iff (by norm_num) htpos]
    nlinarith [htu, hxu, hc3]
  constructor
  · nlinarith [hlb]
  · nlinarith [hub]

/-- C3 counterexample: at `h = 0`, `T = 10`, `P = 101`, `h_min = -20` the
correction differs from `0.561` by more than the stated `1e-3` tolerance. -/
theorem saemundsson_horizon_cex :
    1/1000 < |SaemundssonScalar 0 10 101 (-20) 90 - 0.561| := by
  have h := saemundsson_at_0_bounds
  rw [abs_of_neg (by linarith [h.2] : SaemundssonScalar 0 10 101 (-20) 90 - 0.561 < 0)]
  linarith [h.2]

/-- C3 amended: with `T = 10`, `P = 101`, `h_min = -20`, `h = 0.0` the
refraction correction is approximately `0.483` degrees, within `1e-3`. -/
theorem saemundsson_horizon_value :
    |SaemundssonScalar 0 10 101 (-20) 90 - 0.483| ≤ 1/1000 := by
  have h := saemundsson_at_0_bounds
  rw [abs_le]
  constructor <;> [skip; skip] <;> linarith [h.1, h.2]

/-- C4: for every temperature and pressure, the Saemundsson correction at the
zenith input `90.0` with default clip bounds vanishes to within `1e-9` times
the magnitude of the temperature-pressure scale factor: the additive constant
`0.0019279` is calibrated so the correction is approximately `0` at zenith. -/
theorem saemundsson_zenith_zero (T P : ℝ) :
    |SaemundssonScalar 90 T P (-1) 90|
      ≤ (1/1000000000) * |(P / 101.0) * (283.0 / (273.0 + T))| := by
  rw [saemundsson_at_90, abs_mul, abs_mul]
  have hcore : |0.0019279 - 1.02 * Real.tan ((1030/9511) * (Real.pi/180))|
      ≤ 6/100000000 := by
    rw [abs_le]
    constructor
    · linarith [tan_eps_ub]
    · linarith [tan_eps_gt]
  have h60 : |(1.0/60.0 : ℝ)| = 1/60 := by
    rw [abs_of_pos] <;> norm_num
  rw [h60]
  have habs0 : (0 : ℝ) ≤ |(P / 101.0) * (283.0 / (273.0 + T))| := abs_nonneg _
  have hm := mul_le_mul_of_nonneg_right hcore habs0
  linarith [hm]

/-- C5 counterexample: at the fixed conditions `T = 10`, `P = 101` the
Saemundsson correction at `h = 90` (inside `[0, 90]`) is strictly negative,
refuting non-negativity on `[0, 90]`. -/
theorem saemundsson_nonneg_cex : SaemundssonScalar 90 10 101 (-1) 90 < 0 := by
  rw [saemundsson_at_90]
  have hcore := tan_eps_gt
  have hs : ((101 : ℝ) / 101.0) * (283.0 / (273.0 + 10)) = 1 := by norm_num
  rw [hs]
  nlinarith [hcore]

/-- C5 amended: for fixed physically meaningful conditions (`P > 0`,
`T > -273`) and default clip bounds, the Saemundsson correction is
monotonically non-increasing on all of `[0, 90]`, and it is non-negative on
`[0, 89.99]`; non-negativity fails only in a tiny neighbourhood of `90`,
as the counterexample at `h = 90` shows. -/
theorem saemundsson_monotone_nonneg (T P h1 h2 h : ℝ) (hP : 0 < P) (hT : -273 < T)
    (h10 : 0 ≤ h1) (h12 : h1 ≤ h2) (h290 : h2 ≤ 90) (hh0 : 0 ≤ h) (hhub : h ≤ 89.99) :
    SaemundssonScalar h2 T P (-1) 90 ≤ SaemundssonScalar h1 T P (-1) 90 ∧
    0 ≤ SaemundssonScalar h T P (-1) 90 := by
  have hs0 : 0 < (P / 101.0) * (283.0 / (273.0 + T)) :=
    mul_pos (div_pos hP (by norm_num)) (div_pos (by norm_num) (by linarith))
  unfold SaemundssonScalar
  rw [clip_eq_self (by linarith : (-1 : ℝ) ≤ h2) h290,
    clip_eq_self (by linarith : (-1 : ℝ) ≤ h1) (by linarith),
    clip_eq_self (by linarith : (-1 : ℝ) ≤ h) (by linarith : h ≤ 90)]
  constructor
  · have hB := base_antitone h10 h12 h290
    nlinarith [mul_le_mul_of_nonneg_right
      (add_le_add_right hB 0.0019279) hs0.le]
  · set a := h + 10.3 / (h + 5.11) with hadef
    have ha2 : 2 ≤ a := by rw [hadef]; exact arg_lb h hh0
    have haub : a ≤ 8999/100 + 103/951 := by
      rw [hadef]
      have hb1 := arg_le h (8999/100) (by linarith) (by linarith)
      have hb2 : (8999/100 : ℝ) + 10.3 / (8999/100 + 5.11) = 8999/100 + 103/951 := by
        norm_num
      linarith
    clear_value a
    rcases lt_trichotomy a 90 with hc | hc | hc
    · have ht := tan_deg_pos (show (0 : ℝ) < a by linarith) hc
      have hB : 0 < 1.02 / Real.tan (deg2rad a) := div_pos (by norm_num) ht
      nlinarith [hs0, hB]
    · have ht : Real.tan (deg2rad a) = 0 := by
        rw [hc, deg2rad_90]; exact Real.tan_pi_div_two
      rw [ht, div_zero]
      nlinarith [hs0]
    · have hdeg : deg2rad a = Real.pi/2 + (a - 90) * (Real.pi/180) := by
        unfold deg2rad; ring
      have hδ0 : 0 < (a - 90) * (Real.pi/180) :=
        mul_pos (by linarith) (div_pos Real.pi_pos (by norm_num))
      have hδu : (a - 90) * (Real.pi/180) ≤ (9349/95100) * (3.141593/180) := by
        have hπ := Real.pi_lt_d6
        have haa : a - 90 ≤ 9349/95100 := by linarith
        exact mul_le_mul haa (by linarith) (by positivity) (by norm_num)
      rw [hdeg, tan_shift _ hδ0 (by linarith)]
      have htub : Real.tan ((a - 90) * (Real.pi/180))
          ≤ (a - 90) * (Real.pi/180) + ((a - 90) * (Real.pi/180))^3 :=
        tan_ub hδ0 (by linarith)
      have hδc : ((a - 90) * (Real.pi/180))^3 ≤ ((9349/95100 : ℝ) * (3.141593/180))^3 :=
        pow_le_pow_left hδ0.le hδu 3
      have hkey : 1.02 * Real.tan ((a - 90) * (Real.pi/180)) ≤ 0.0019279 := by
        nlinarith [htub, hδu, hδc]
      nlinarith [mul_nonneg
        (show (0 : ℝ) ≤ -(1.02 * Real.tan ((a - 90) * (Real.pi/180))) + 0.0019279 by
          linarith) hs0.le]

/-- Witness for C5 amended at `T = 10`, `P = 101`, `h1 = 0`, `h2 = 90`, `h = 0`. -/
theorem saemundsson_monotone_nonneg_witness :
    (0 : ℝ) < 101 ∧ (-273 : ℝ) < 10 ∧ (0 : ℝ) ≤ 0 ∧ (0 : ℝ) ≤ 90 ∧ (90 : ℝ) ≤ 90 ∧
    (0 : ℝ) ≤ 89.99 ∧
    (SaemundssonScalar 90 10 101 (-1) 90 ≤ SaemundssonScalar 0 10 101 (-1) 90 ∧
      0 ≤ SaemundssonScalar 0 10 101 (-1) 90) :=
  ⟨by norm_num, by norm_num, le_refl 0, by norm_num, le_refl 90, by norm_num,
    saemundsson_monotone_nonneg 10 101 0 90 0 (by norm_num) (by norm_num) (le_refl 0)
      (by norm_num) (le_refl 90) (le_refl 0) (by norm_num)⟩

/-- C9 counterexample: at the concrete input `hstar = (8489 + √90047121)/200`
(≈ 89.8916, fixed by the default clip `[-1, 90]`), the tangent argument of the
Saemundsson formula is exactly 90 degrees, an odd multiple of 90 degrees where
`tan` is singular (`cos` of the radian argument is exactly `0`). -/
theorem singularity_cex :
    clip hstar (-1) 90 = hstar ∧
    hstar + 10.3 / (hstar + 5.11) = 90 ∧
    Real.cos (deg2rad (hstar + 10.3 / (hstar + 5.11))) = 0 := by
  have hb := hstar_bounds
  refine ⟨clip_eq_self (by linarith [hb.1]) (le_of_lt hb.2), hstar_arg, ?_⟩
  rw [hstar_arg, deg2rad_90]
  exact Real.cos_pi_div_two

/-- C9 amended: for every input, the clipped value under the default bounds
gives a nonzero denominator `h + 5.11`; and unless the clipped value is
exactly the singular point `hstar`, the tangent argument avoids every odd
multiple of 90 degrees, so the formula's division and tangent are
well-defined.  At `hstar` itself the argument is exactly 90 degrees. -/
theorem singularity_amended (x : ℝ) (hne : clip x (-1) 90 ≠ hstar) :
    clip x (-1) 90 + 5.11 ≠ 0 ∧
    Real.cos (deg2rad (clip x (-1) 90 + 10.3 / (clip x (-1) 90 + 5.11))) ≠ 0 := by
  obtain ⟨hlo, hhi⟩ := clip_mem x (-1) 90 (by norm_num)
  set h := clip x (-1) 90 with hhdef
  clear_value h
  have hden : (0 : ℝ) < h + 5.11 := by linarith
  refine ⟨ne_of_gt hden, ?_⟩
  intro hcos
  set a := h + 10.3 / (h + 5.11) with hadef
  have halb : (3/2 : ℝ) ≤ a := by
    rw [hadef]
    have hb1 := arg_le (-1) h (by norm_num) hlo
    have hb2 : (3/2 : ℝ) ≤ -1 + 10.3 / (-1 + 5.11) := by norm_num
    linarith
  have haub : a ≤ 90 + 1030/9511 := by rw [hadef]; exact arg_ub h hhi hlo
  clear_value a
  obtain ⟨k, hk⟩ := Real.cos_eq_zero_iff.mp hcos
  have ha90 : a = ((2 * k + 1 : ℤ) : ℝ) * 90 := by
    have hfac : (a / 180 - ((2 * k + 1 : ℤ) : ℝ) / 2) * Real.pi = 0 := by
      unfold deg2rad at hk
      push_cast at hk ⊢
      linear_combination hk
    rcases mul_eq_zero.mp hfac with hone | hone
    · push_cast at hone ⊢
      linarith
    · exact absurd hone Real.pi_ne_zero
  have hk1 : (0 : ℤ) < 2 * k + 1 := by
    have hr : (0 : ℝ) < ((2 * k + 1 : ℤ) : ℝ) := by
      by_contra hcon
      push_neg at hcon
      nlinarith [halb, ha90]
    exact_mod_cast hr
  have hk2 : (2 * k + 1 : ℤ) < 2 := by
    have hr : ((2 * k + 1 : ℤ) : ℝ) < 2 := by
      by_contra hcon
      push_neg at hcon
      nlinarith [haub, ha90]
    exact_mod_cast hr
  have hkval : (2 * k + 1 : ℤ) = 1 := by omega
  rw [hkval] at ha90
  have heq90 : h + 10.3 / (h + 5.11) = 90 := by
    rw [hadef] at ha90
    push_cast at ha90
    linarith
  exact hne (quad_root_unique h hlo heq90)

/-- Witness for C9 amended at the raw input `x = 0` (clipped value `0 ≠ hstar`). -/
theorem singularity_amended_witness :
    clip (0 : ℝ) (-1) 90 ≠ hstar ∧
    (clip (0 : ℝ) (-1) 90 + 5.11 ≠ 0 ∧
      Real.cos (deg2rad (clip (0 : ℝ) (-1) 90 + 10.3 / (clip (0 : ℝ) (-1) 90 + 5.11)))
        ≠ 0) := by
  have hne : clip (0 : ℝ) (-1) 90 ≠ hstar := by
    rw [clip_eq_self (by norm_num) (by norm_num)]
    intro h0
    have hb := hstar_bounds.1
    rw [← h0] at hb
    norm_num at hb
  exact ⟨hne, singularity_amended 0 hne⟩

end Atmos
